import Mathlib

/-!
Verification development for the `rag.py` retrieval pipeline
(load PDF → chunk → embed → normalize → store in Milvus → search).

The pipeline in `src/rag.py` orchestrates external collaborators
(`PyPDFLoader`, langchain's `RecursiveCharacterTextSplitter`,
`SentenceTransformer`, `MilvusClient`).  The pipeline-level logic
(normalization, zipping chunks with vectors, metadata defaults, error
paths, collection naming, parameter values) is embedded directly from
the source.  The external collaborators, whose code is not part of this
repository, are modelled from the specification where their behaviour
matters; each such definition carries a doc comment saying so.

Machine reals (float32 tensors) are modelled by `ℝ`; strings by `String`.
-/

/-! ## Splitter configuration (src/rag.py, encode_docs, lines 39-48) -/

/-- `CHUNK_SIZE = 384` (src/rag.py line 40). -/
def CHUNK_SIZE : Nat := 384

/-- `chunk_overlap = int(CHUNK_SIZE * 0.3)` (src/rag.py line 41).
Python's `int()` truncates toward zero; `384 * 0.3 = 115.2` so the result
is `115`, which equals `384 * 3 / 10` in exact natural-number arithmetic. -/
def chunk_overlap : Nat := CHUNK_SIZE * 3 / 10

/-- The prioritized separator list passed to the splitter
(src/rag.py line 46): paragraph break, line break, sentence end,
clause break, whitespace, arbitrary character. -/
def ragSeparators : List String := ["\n\n", "\n", ". ", ", ", " ", ""]

/-- The configuration handed to `RecursiveCharacterTextSplitter`
(src/rag.py lines 43-47). -/
structure SplitterConfig where
  chunk_size : Nat
  chunk_overlap : Nat
  separators : List String
deriving DecidableEq

/-- The splitter instance `child_splitter` built in `encode_docs`. -/
def childSplitter : SplitterConfig :=
  { chunk_size := CHUNK_SIZE, chunk_overlap := chunk_overlap,
    separators := ragSeparators }

/-! ## The chunking algorithm

Modelled from the spec: `RecursiveCharacterTextSplitter.split_documents`
is external library code (langchain) not present in this repository.
Spec §4.2: for each record's text, repeatedly cut the text into the
largest prefix of length at most `chunk_size` that ends at the
highest-priority boundary found by scanning the prioritized separator
list, searching backward from position `chunk_size` within the remaining
text; if no separator exists, cut exactly at `chunk_size` (the final
empty-string separator matches everywhere and realizes this raw cut).
The next chunk starts `chunk_overlap` characters before the cut, clamped
so that the split always advances.  Empty text produces zero chunks. -/

/-- Modelled from the spec: does separator `sep` occur ending exactly at
position `p` of `text`? The empty separator matches at every position. -/
def sepMatchEnd (sep text : List Char) (p : Nat) : Bool :=
  decide (sep.length ≤ p) && ((text.take p).drop (p - sep.length) == sep)

/-- Modelled from the spec: scan backward from position `p` down to `1`
for the largest position at which `sep` ends. -/
def findFrom (sep text : List Char) : Nat → Option Nat
  | 0 => none
  | p + 1 =>
    if sepMatchEnd sep text (p + 1) then some (p + 1)
    else findFrom sep text p

/-- Modelled from the spec: the cut position for the highest-priority
separator that occurs within the first `csize` characters; if none of
the separators occurs, cut exactly at `csize`. -/
def findCut (seps : List (List Char)) (csize : Nat) (text : List Char) : Nat :=
  match seps with
  | [] => csize
  | s :: rest =>
    match findFrom s text csize with
    | some p => p
    | none => findCut rest csize text

/-- Modelled from the spec: repeatedly cut chunks off the front of
`text`; the fuel argument (instantiated with the text length) makes the
recursion structural — each step consumes at least one character. -/
def splitGo (seps : List (List Char)) (csize ov : Nat) :
    Nat → List Char → List (List Char)
  | 0, text => if text.isEmpty then [] else [text]
  | fuel + 1, text =>
    if text.length ≤ csize then
      if text.isEmpty then [] else [text]
    else
      let cut := findCut seps csize text
      let nextStart := max (cut - ov) 1
      text.take cut :: splitGo seps csize ov fuel (text.drop nextStart)

/-- Modelled from the spec: split one text into chunks according to a
splitter configuration (spec §4.2). -/
def split_text (cfg : SplitterConfig) (s : String) : List String :=
  (splitGo (cfg.separators.map (·.data)) cfg.chunk_size cfg.chunk_overlap
      s.data.length s.data).map (fun l => String.mk l)

/-! ## Documents -/

/-- A langchain `Document` as consumed by the pipeline: `page_content`
plus the two metadata keys the pipeline reads.  `none` models a missing
metadata key (`chunk.metadata.get` defaults cover that case).  Page
numbers produced by the loader are natural numbers (spec §3:
`pageNumber: integer ≥ 0`). -/
structure Document where
  page_content : String
  source : Option String
  page : Option Nat
deriving DecidableEq

/-- Modelled from the spec: `split_documents` applies the text splitter
to each document's text in order, each chunk inheriting the metadata of
its originating document (spec §4.2). -/
def split_documents (cfg : SplitterConfig) (docs : List Document) : List Document :=
  docs.flatMap (fun d => (split_text cfg d.page_content).map
    (fun t => { d with page_content := t }))

/-! ## Embedding vectors and L2 normalization
(src/rag.py, encode_docs lines 52-54 and search lines 78-81) -/

/-- Sum of squares of the entries of a vector. -/
def sumSq (v : List ℝ) : ℝ := (v.map (fun x => x ^ 2)).sum

/-- The Euclidean norm of a vector. -/
noncomputable def l2norm (v : List ℝ) : ℝ := Real.sqrt (sumSq v)

/-- The `eps` argument of `torch.nn.functional.normalize`
(default `1e-12`): the divisor is clamped below by this value. -/
noncomputable def normEps : ℝ := 1 / 10 ^ 12

/-- `F.normalize(v, p=2, dim=1)` applied to one row: divide every entry
by `max(‖v‖₂, eps)` (src/rag.py lines 54 and 81). -/
noncomputable def l2normalize (v : List ℝ) : List ℝ :=
  v.map (fun x => x / max (l2norm v) normEps)

/-- The embedding stage of `encode_docs` (src/rag.py lines 52-54):
`encoder.encode` on the batch followed by row-wise `F.normalize`.  The
external model is a function `String → List ℝ` applied element-wise
(deterministic, as the spec assumes). -/
noncomputable def encodeBatch (enc : String → List ℝ) (texts : List String) :
    List (List ℝ) :=
  texts.map (fun t => l2normalize (enc t))

/-- The query-embedding stage of `search` (src/rag.py lines 78-81):
`encoder.encode(question)`, `unsqueeze(0)` to a one-row matrix, and
row-wise `F.normalize` — i.e. `l2normalize` of the single vector. -/
noncomputable def searchQueryVec (enc : String → List ℝ) (question : String) :
    List ℝ :=
  l2normalize (enc question)

/-! ## encode_docs (src/rag.py lines 37-65) -/

/-- One entry of the `dict_list` built by `encode_docs`
(src/rag.py lines 57-62): keys `chunk`, `source`, `page`, `vector`. -/
structure ChunkDict where
  chunk : String
  source : String
  page : Nat
  vector : List ℝ

/-- The keys of every dict built by `encode_docs`, in insertion order
(used by `search` to compute its output fields from `dict_list[0]`). -/
def dictKeys : List String := ["chunk", "source", "page", "vector"]

/-- `encode_docs(docs, encoder)` (src/rag.py lines 37-65): split the
documents with `child_splitter`, embed every chunk text
(`list_of_strings` keeps each chunk's `page_content`; in this model
every chunk has that attribute, so the `hasattr` filter in line 51 keeps
all of them), normalize, and zip the chunks back with their vectors,
defaulting missing metadata (`metadata.get('source', '')`,
`metadata.get('page', 0)`). -/
noncomputable def encode_docs (enc : String → List ℝ) (docs : List Document) :
    List ChunkDict :=
  let chunks := split_documents childSplitter docs
  let list_of_strings := chunks.map (·.page_content)
  let embeddings := encodeBatch enc list_of_strings
  (chunks.zip embeddings).map (fun cv =>
    { chunk := cv.1.page_content
      source := cv.1.source.getD ""
      page := cv.1.page.getD 0
      vector := cv.2 })

/-! ## The vector store (src/rag.py lines 12, 67-75)

Modelled from the spec: `MilvusClient` is external (pymilvus).  The
persistent contents of a database file are a collection-name-indexed
association list of record lists; `create_collection` with
`overwrite=True` drops any existing collection of the same name first
(spec §4.4), `insert` appends the given records to the named
collection. -/

/-- `COLLECTION_NAME = "pdfs"` (src/rag.py line 12). -/
def COLLECTION_NAME : String := "pdfs"

/-- The persisted contents of a Milvus database file: collections by
name. -/
abbrev StoreState := List (String × List ChunkDict)

/-- A connected Milvus client: the database file it was opened on and
the collections it holds. -/
structure MilvusClient where
  dbfile : String
  collections : StoreState

/-- `MilvusClient("db/rag.db")` (src/rag.py line 68): open the client on
the file `db/rag.db`, seeing the previously persisted state. -/
def openMilvus (persisted : StoreState) : MilvusClient :=
  { dbfile := "db/rag.db", collections := persisted }

/-- Modelled from the spec: `create_collection(name, dim, overwrite)`
with `overwrite=True` drops any existing collection of the same name and
creates it empty (spec §4.4); with `overwrite=False` an existing
collection is left as is. -/
def create_collection (mc : MilvusClient) (name : String) (overwrite : Bool) :
    MilvusClient :=
  if overwrite then
    { mc with collections :=
        (name, []) :: mc.collections.filter (fun e => e.1 != name) }
  else if (mc.collections.lookup name).isSome then mc
  else { mc with collections := (name, []) :: mc.collections }

/-- Modelled from the spec: `insert(name, data)` appends the records to
the named collection (spec §4.4; a missing collection is a store-level
error surfaced by the real client — the pipeline always creates the
collection first, so the model leaves the state unchanged there). -/
def milvusInsert (mc : MilvusClient) (name : String) (data : List ChunkDict) :
    MilvusClient :=
  { mc with collections :=
      mc.collections.map (fun e => if e.1 == name then (e.1, e.2 ++ data) else e) }

/-- `save_vectors_to_db(dict_list, embedding_dim)` (src/rag.py lines
67-75): open `db/rag.db`, `create_collection(COLLECTION_NAME, …,
overwrite=True)`, then `insert(COLLECTION_NAME, data=dict_list)`. -/
def save_vectors_to_db (persisted : StoreState) (dict_list : List ChunkDict) :
    MilvusClient :=
  milvusInsert (create_collection (openMilvus persisted) COLLECTION_NAME true)
    COLLECTION_NAME dict_list

/-! ## load_file and init_rag (src/rag.py lines 26-35, 100-105) -/

/-- The error raised by `load_file`. -/
inductive LoadError where
  | fileNotFound (msg : String)
deriving DecidableEq

/-- The file system visible to `os.path.exists` and `PyPDFLoader`: the
paths that exist, each with the page documents the loader parses out of
it (the loader itself is external; spec §4.1 gives its contract). -/
abbrev FileSystem := List (String × List Document)

/-- `load_file(pdf_path)` (src/rag.py lines 26-35): raise
`FileNotFoundError(f"File not found: {pdf_path}. Please provide a valid
file path.")` when the path does not exist, otherwise return the pages
the loader produces. -/
def load_file (fs : FileSystem) (pdf_path : String) :
    Except LoadError (List Document) :=
  match fs.lookup pdf_path with
  | none => .error (.fileNotFound
      ("File not found: " ++ pdf_path ++ ". Please provide a valid file path."))
  | some docs => .ok docs

/-- `init_rag(pdf_path)` (src/rag.py lines 100-105): load the file,
encode the documents, save the vectors.  State passing makes the
persistent store explicit: the first component is the state of
`db/rag.db` after the call (unchanged when loading fails, since
`load_file` is called before any store operation). -/
noncomputable def init_rag (fs : FileSystem) (persisted : StoreState)
    (enc : String → List ℝ) (pdf_path : String) :
    StoreState × Except LoadError (MilvusClient × List ChunkDict) :=
  match load_file fs pdf_path with
  | .error e => (persisted, .error e)
  | .ok docs =>
    let dict_list := encode_docs enc docs
    let mc := save_vectors_to_db persisted dict_list
    (mc.collections, .ok (mc, dict_list))

/-! ## search (src/rag.py lines 77-95) -/

/-- The entity fields of one search hit: the output fields requested by
`search` (all dict keys except `vector`). -/
structure SearchEntity where
  chunk : String
  source : String
  page : Nat

/-- One search hit: a distance (similarity score) and the entity
fields. -/
structure SearchResult where
  distance : ℝ
  entity : SearchEntity

/-- Inner product of two vectors (the similarity the store computes;
on normalized vectors this is cosine similarity, spec §4.4). -/
def innerProd (a b : List ℝ) : ℝ :=
  ((a.zip b).map (fun p => p.1 * p.2)).sum

/-- Modelled from the spec: `mc.search(collection, data, output_fields,
limit, …)` for a single query vector returns the stored records ranked
best-first by similarity to the query, at most `limit` of them, each hit
carrying the requested non-vector output fields and its score
(spec §4.4). -/
noncomputable def milvusSearch (recs : List ChunkDict) (qvec : List ℝ)
    (limit : Nat) (_output_fields : List String) : List SearchResult :=
  (List.insertionSort (fun a b => b.distance ≤ a.distance)
    (recs.map (fun r =>
      { distance := innerProd qvec r.vector
        entity := { chunk := r.chunk, source := r.source, page := r.page } }))).take
    limit

/-- The error outcomes of `search` in the model: the `IndexError` from
`dict_list[0]` on an empty list, and the store's collection-not-found
error. -/
inductive SearchError where
  | indexError
  | collectionNotFound
deriving DecidableEq

/-- `search(mc, encoder, dict_list, question, top_k)` (src/rag.py lines
77-95): embed and normalize the question, compute `OUTPUT_FIELDS` from
`dict_list[0]` (an `IndexError` when `dict_list` is empty, before any
store access), then query the store's `COLLECTION_NAME` collection.  The
source returns `results` with `results[0]` the hit list of the single
query; the model returns that hit list. -/
noncomputable def search (mc : MilvusClient) (enc : String → List ℝ)
    (dict_list : List ChunkDict) (question : String) (top_k : Nat) :
    Except SearchError (List SearchResult) :=
  let query_embeddings := searchQueryVec enc question
  match dict_list with
  | [] => .error .indexError
  | _ :: _ =>
    let OUTPUT_FIELDS := dictKeys.erase "vector"
    match mc.collections.lookup COLLECTION_NAME with
    | none => .error .collectionNotFound
    | some recs => .ok (milvusSearch recs query_embeddings top_k OUTPUT_FIELDS)

/-- The default value of the `top_k` parameter of `search` and
`rag_search` (src/rag.py lines 77 and 107): `top_k=5`. -/
def TOP_K_DEFAULT : Nat := 5

/-- `search` as called with the `top_k` parameter left at its default
(src/rag.py line 77: `top_k=5`). -/
noncomputable def searchDefault (mc : MilvusClient) (enc : String → List ℝ)
    (dict_list : List ChunkDict) (question : String) :
    Except SearchError (List SearchResult) :=
  search mc enc dict_list question TOP_K_DEFAULT

/-! ## Helper lemmas -/

/-- Zipping a list with a map of itself pairs every element with its own
image. -/
theorem zip_self_map {α β : Type} (l : List α) (h : α → β) :
    l.zip (l.map h) = l.map (fun a => (a, h a)) := by
  induction l with
  | nil => rfl
  | cons x xs ih => simp [ih]

/-- `encode_docs` is the map over the split documents that pairs each
chunk with the normalized embedding of its own text. -/
theorem encode_docs_eq_map (enc : String → List ℝ) (docs : List Document) :
    encode_docs enc docs =
      (split_documents childSplitter docs).map (fun c =>
        { chunk := c.page_content
          source := c.source.getD ""
          page := c.page.getD 0
          vector := l2normalize (enc c.page_content) }) := by
  simp only [encode_docs, encodeBatch]
  rw [List.map_map, zip_self_map, List.map_map]
  rfl

theorem sumSq_nonneg (v : List ℝ) : 0 ≤ sumSq v := by
  unfold sumSq
  induction v with
  | nil => simp
  | cons x xs ih => simpa using add_nonneg (sq_nonneg x) ih

theorem sumSq_map_div (v : List ℝ) (c : ℝ) :
    sumSq (v.map (fun x => x / c)) = sumSq v / c ^ 2 := by
  unfold sumSq
  induction v with
  | nil => simp
  | cons x xs ih =>
    simp only [List.map_cons, List.sum_cons]
    rw [ih, div_pow, add_div]

theorem normEps_pos : 0 < normEps := by
  unfold normEps; positivity

/-- The normalization step produces a vector of squared norm exactly `1`
whenever the input's norm is at least the `eps` clamp. -/
theorem sumSq_l2normalize {v : List ℝ} (h : normEps ≤ l2norm v) :
    sumSq (l2normalize v) = 1 := by
  have hpos : 0 < l2norm v := lt_of_lt_of_le normEps_pos h
  have hmax : max (l2norm v) normEps = l2norm v := max_eq_left h
  have hsq : l2norm v ^ 2 = sumSq v := Real.sq_sqrt (sumSq_nonneg v)
  have hssq : 0 < sumSq v := by
    rw [← hsq]; positivity
  unfold l2normalize
  rw [hmax, sumSq_map_div, hsq, div_self (ne_of_gt hssq)]

/-! ## Claim theorems -/

/-- C2: the chunker used by `encode_docs` splits every input document
sequence with the prioritized separator list paragraph break (`"\n\n"`),
line break (`"\n"`), sentence end (`". "`), clause break (`", "`),
whitespace (`" "`), then arbitrary character (`""`), with chunk size
`384` and overlap `⌊384 * 0.3⌋ = 115`. -/
theorem encode_docs_splitter_config :
    childSplitter =
      { chunk_size := 384, chunk_overlap := 115,
        separators := ["\n\n", "\n", ". ", ", ", " ", ""] }
    ∧ chunk_overlap = Nat.floor ((384 : ℚ) * (3 / 10))
    ∧ ∀ (enc : String → List ℝ) (docs : List Document),
        encode_docs enc docs =
          (split_documents
            { chunk_size := 384, chunk_overlap := 115,
              separators := ["\n\n", "\n", ". ", ", ", " ", ""] } docs).map
            (fun c =>
              { chunk := c.page_content
                source := c.source.getD ""
                page := c.page.getD 0
                vector := l2normalize (enc c.page_content) }) := by
  refine ⟨by decide, ?_, fun enc docs => ?_⟩
  · have h115 : Nat.floor ((384 : ℚ) * (3 / 10)) = 115 := by
      rw [Nat.floor_eq_iff (by norm_num)]
      norm_num
    rw [h115]
    decide
  have h : childSplitter =
      { chunk_size := 384, chunk_overlap := 115,
        separators := ["\n\n", "\n", ". ", ", ", " ", ""] } := by decide
  rw [encode_docs_eq_map, h]

/-- C6 counterexample: the empty string is shorter than the chunk size
`384`, yet chunking it yields zero chunks rather than exactly one chunk
equal to the input. -/
theorem split_text_empty_cx :
    ("" : String).length < CHUNK_SIZE
    ∧ split_text childSplitter "" = []
    ∧ split_text childSplitter "" ≠ [""] := by
  refine ⟨by decide, by decide, by decide⟩

/-- C6 (amended): for any nonempty input text shorter than the
configured chunk size `384`, chunking yields exactly one chunk whose
text equals the input text. -/
theorem split_text_short_singleton (s : String) (hne : s ≠ "")
    (hlen : s.length < CHUNK_SIZE) : split_text childSplitter s = [s] := by
  obtain ⟨data⟩ := s
  cases data with
  | nil => exact absurd rfl hne
  | cons c cs =>
    have hl : (c :: cs).length ≤ childSplitter.chunk_size := by
      have h1 : (String.mk (c :: cs)).length = (c :: cs).length := rfl
      have h2 : CHUNK_SIZE = childSplitter.chunk_size := rfl
      omega
    show (splitGo (childSplitter.separators.map (·.data))
        childSplitter.chunk_size childSplitter.chunk_overlap
        (String.mk (c :: cs)).data.length (String.mk (c :: cs)).data).map
        (fun l => String.mk l) = [String.mk (c :: cs)]
    have hlen' : (String.mk (c :: cs)).data.length = cs.length + 1 := rfl
    rw [hlen']
    have hl2 : cs.length + 1 ≤ childSplitter.chunk_size := by simpa using hl
    show List.map (fun l => String.mk l)
        (if (c :: cs).length ≤ childSplitter.chunk_size then [c :: cs]
          else _) = [String.mk (c :: cs)]
    rw [if_pos hl]
    rfl

/-- C6 amended-theorem witness at the concrete input `"a"`. -/
theorem split_text_short_singleton_witness :
    ("a" : String) ≠ "" ∧ ("a" : String).length < CHUNK_SIZE
    ∧ split_text childSplitter "a" = ["a"] :=
  ⟨by decide, by decide, split_text_short_singleton "a" (by decide) (by decide)⟩

/-- C1: every vector handed onward by the pipeline — each stored chunk
vector built by `encode_docs` and the query vector built by `search` —
is the explicit L2 normalization of the model's output, and has unit
norm (squared norm exactly `1` in the real-valued model) whenever the
model's output clears the `eps` clamp of `F.normalize`, regardless of
whether that output was already normalized. -/
theorem pipeline_vectors_unit_norm (enc : String → List ℝ)
    (docs : List Document) (question : String) :
    (∀ r ∈ encode_docs enc docs,
      r.vector = l2normalize (enc r.chunk)
      ∧ (normEps ≤ l2norm (enc r.chunk) → sumSq r.vector = 1))
    ∧ searchQueryVec enc question = l2normalize (enc question)
    ∧ (normEps ≤ l2norm (enc question) →
        sumSq (searchQueryVec enc question) = 1) := by
  refine ⟨fun r hr => ?_, rfl, fun h => sumSq_l2normalize h⟩
  rw [encode_docs_eq_map] at hr
  obtain ⟨c, _, rfl⟩ := List.mem_map.mp hr
  exact ⟨rfl, fun h => sumSq_l2normalize h⟩

theorem sumSq_three_four : sumSq [(3 : ℝ), 4] = 25 := by
  norm_num [sumSq]

theorem l2norm_three_four : l2norm [(3 : ℝ), 4] = 5 := by
  rw [l2norm, sumSq_three_four, show (25 : ℝ) = 5 ^ 2 by norm_num]
  exact Real.sqrt_sq (by norm_num)

theorem normEps_le_three_four : normEps ≤ l2norm [(3 : ℝ), 4] := by
  rw [l2norm_three_four, normEps]
  norm_num

/-- C1 witness: at the model `fun _ => [3, 4]` the stored record of the
one-chunk document `"hi"` and the query vector for `"q"` both have unit
squared norm. -/
theorem pipeline_vectors_unit_norm_witness :
    (⟨"hi", "s", 1, l2normalize [(3 : ℝ), 4]⟩ : ChunkDict) ∈
      encode_docs (fun _ => [(3 : ℝ), 4]) [⟨"hi", some "s", some 1⟩]
    ∧ normEps ≤ l2norm [(3 : ℝ), 4]
    ∧ sumSq (l2normalize [(3 : ℝ), 4]) = 1
    ∧ sumSq (searchQueryVec (fun _ => [(3 : ℝ), 4]) "q") = 1 := by
  have hmem : (⟨"hi", "s", 1, l2normalize [(3 : ℝ), 4]⟩ : ChunkDict) ∈
      encode_docs (fun _ => [(3 : ℝ), 4]) [⟨"hi", some "s", some 1⟩] := by
    rw [encode_docs_eq_map,
      show split_documents childSplitter [⟨"hi", some "s", some 1⟩]
        = [⟨"hi", some "s", some 1⟩] by decide]
    exact List.mem_singleton.mpr rfl
  have main := pipeline_vectors_unit_norm (fun _ => [(3 : ℝ), 4])
    [⟨"hi", some "s", some 1⟩] "q"
  exact ⟨hmem, normEps_le_three_four,
    (main.1 _ hmem).2 normEps_le_three_four,
    main.2.2 normEps_le_three_four⟩

/-- C4: the records built by `encode_docs` correspond index-for-index to
the split chunks — the i-th record carries the i-th chunk's text and the
normalized embedding of that same text, with no pairing shift between
the encoder's input list and the chunks it is zipped back onto. -/
theorem encode_docs_index_aligned (enc : String → List ℝ)
    (docs : List Document) :
    (encode_docs enc docs).length = (split_documents childSplitter docs).length
    ∧ ∀ (i : Nat) (h1 : i < (encode_docs enc docs).length)
        (h2 : i < (split_documents childSplitter docs).length),
        ((encode_docs enc docs).get ⟨i, h1⟩).chunk
          = ((split_documents childSplitter docs).get ⟨i, h2⟩).page_content
        ∧ ((encode_docs enc docs).get ⟨i, h1⟩).vector
          = l2normalize (enc
              (((split_documents childSplitter docs).get ⟨i, h2⟩).page_content)) := by
  have hmap := encode_docs_eq_map enc docs
  constructor
  · rw [hmap, List.length_map]
  · intro i h1 h2
    simp only [List.get_eq_getElem]
    simp [hmap, List.getElem_map]

/-- C4 witness at one concrete document and index `0`. -/
theorem encode_docs_index_aligned_witness :
    ((encode_docs (fun _ => [(3 : ℝ), 4]) [⟨"hi", some "s", some 1⟩]).get
        ⟨0, by decide⟩).chunk
      = ((split_documents childSplitter [⟨"hi", some "s", some 1⟩]).get
          ⟨0, by decide⟩).page_content
    ∧ ((encode_docs (fun _ => [(3 : ℝ), 4]) [⟨"hi", some "s", some 1⟩]).get
        ⟨0, by decide⟩).vector
      = l2normalize ((fun _ => [(3 : ℝ), 4])
          (((split_documents childSplitter [⟨"hi", some "s", some 1⟩]).get
              ⟨0, by decide⟩).page_content)) :=
  (encode_docs_index_aligned (fun _ => [(3 : ℝ), 4])
    [⟨"hi", some "s", some 1⟩]).2 0 (by decide) (by decide)

/-- C7: embedding a text inside the batch path of `encode_docs` and
embedding it as the single query of `search` produce the same
normalized vector — with the external model a fixed (deterministic)
function, the two code paths agree exactly. -/
theorem batch_single_embed_agree (enc : String → List ℝ)
    (texts : List String) (i : Nat) (h1 : i < texts.length)
    (h2 : i < (encodeBatch enc texts).length) :
    (encodeBatch enc texts).get ⟨i, h2⟩
      = searchQueryVec enc (texts.get ⟨i, h1⟩) := by
  unfold encodeBatch searchQueryVec
  simp only [List.get_eq_getElem, List.getElem_map]

/-- C7 witness: the batch embedding of `["a"]` at index `0` equals the
single-query embedding of `"a"`. -/
theorem batch_single_embed_agree_witness :
    (encodeBatch (fun _ => [(3 : ℝ), 4]) ["a"]).get ⟨0, by decide⟩
      = searchQueryVec (fun _ => [(3 : ℝ), 4]) (["a"].get ⟨0, by decide⟩) :=
  batch_single_embed_agree (fun _ => [(3 : ℝ), 4]) ["a"] 0
    (by decide) (by decide)

/-- C9: each record built by `encode_docs` takes its `source` and `page`
from its chunk's metadata with `metadata.get` defaults — the empty
string when `source` is missing and `0` when `page` is missing — so
every inserted record carries a string `source` and a non-negative
integer `page`. -/
theorem encode_docs_metadata_defaults (enc : String → List ℝ)
    (docs : List Document) (r : ChunkDict)
    (hr : r ∈ encode_docs enc docs) :
    (∃ c ∈ split_documents childSplitter docs,
      r.chunk = c.page_content
      ∧ r.source = c.source.getD ""
      ∧ r.page = c.page.getD 0)
    ∧ 0 ≤ (r.page : ℤ) := by
  rw [encode_docs_eq_map] at hr
  obtain ⟨c, hc, rfl⟩ := List.mem_map.mp hr
  exact ⟨⟨c, hc, rfl, rfl, rfl⟩, Int.ofNat_nonneg _⟩

/-- C9 witness: a chunk with no `source` and no `page` metadata yields a
record with `source = ""` and `page = 0`. -/
theorem encode_docs_metadata_defaults_witness :
    (⟨"hi", "", 0, l2normalize [(3 : ℝ), 4]⟩ : ChunkDict) ∈
      encode_docs (fun _ => [(3 : ℝ), 4]) [⟨"hi", none, none⟩]
    ∧ 0 ≤ ((⟨"hi", "", 0, l2normalize [(3 : ℝ), 4]⟩ : ChunkDict).page : ℤ) := by
  have hmem : (⟨"hi", "", 0, l2normalize [(3 : ℝ), 4]⟩ : ChunkDict) ∈
      encode_docs (fun _ => [(3 : ℝ), 4]) [⟨"hi", none, none⟩] := by
    rw [encode_docs_eq_map,
      show split_documents childSplitter [⟨"hi", none, none⟩]
        = [⟨"hi", none, none⟩] by decide]
    exact List.mem_singleton.mpr rfl
  exact ⟨hmem,
    (encode_docs_metadata_defaults (fun _ => [(3 : ℝ), 4])
      [⟨"hi", none, none⟩] _ hmem).2⟩

/-- C3: when the path does not reference an existing file, `init_rag`
signals the `FileNotFoundError` of `load_file`, whose message names the
path, and the persistent vector store is untouched — no collection is
created and nothing is inserted. -/
theorem init_rag_missing_file (fs : FileSystem) (persisted : StoreState)
    (enc : String → List ℝ) (pdf_path : String)
    (h : fs.lookup pdf_path = none) :
    init_rag fs persisted enc pdf_path =
      (persisted, .error (.fileNotFound
        ("File not found: " ++ pdf_path
          ++ ". Please provide a valid file path."))) := by
  unfold init_rag load_file
  rw [h]

/-- C3 witness: ingesting `"/nonexistent.pdf"` on an empty file system
fails without touching the store. -/
theorem init_rag_missing_file_witness :
    ([] : FileSystem).lookup "/nonexistent.pdf" = none
    ∧ init_rag [] [] (fun _ => [(3 : ℝ), 4]) "/nonexistent.pdf" =
        ([], .error (.fileNotFound
          ("File not found: " ++ "/nonexistent.pdf"
            ++ ". Please provide a valid file path."))) :=
  ⟨rfl, init_rag_missing_file [] [] (fun _ => [(3 : ℝ), 4])
    "/nonexistent.pdf" rfl⟩

/-- C5: for every query against an existing collection, `search` returns
at most `top_k` results ordered best-first by similarity; when `top_k`
exceeds the number of indexed records exactly the number of indexed
records is returned; and the `top_k` parameter defaults to `5`. -/
theorem search_top_k_bound (mc : MilvusClient) (enc : String → List ℝ)
    (d : ChunkDict) (dl : List ChunkDict) (question : String)
    (top_k : Nat) (recs : List ChunkDict)
    (h : mc.collections.lookup COLLECTION_NAME = some recs) :
    ∃ res, search mc enc (d :: dl) question top_k = .ok res
      ∧ res.length = min top_k recs.length
      ∧ List.Pairwise (fun a b => b.distance ≤ a.distance) res
      ∧ (recs.length ≤ top_k → res.length = recs.length)
      ∧ searchDefault mc enc (d :: dl) question
          = search mc enc (d :: dl) question 5 := by
  refine ⟨milvusSearch recs (searchQueryVec enc question) top_k
    (dictKeys.erase "vector"), ?_, ?_, ?_, ?_, rfl⟩
  · simp only [search]
    rw [h]
  · unfold milvusSearch
    rw [List.length_take, List.length_insertionSort, List.length_map]
  · unfold milvusSearch
    haveI ht : IsTotal SearchResult (fun a b => b.distance ≤ a.distance) :=
      ⟨fun a b => le_total b.distance a.distance⟩
    haveI htr : IsTrans SearchResult (fun a b => b.distance ≤ a.distance) :=
      ⟨fun _ _ _ hab hbc => le_trans hbc hab⟩
    exact (List.sorted_insertionSort _ _).sublist (List.take_sublist _ _)
  · intro hle
    unfold milvusSearch
    rw [List.length_take, List.length_insertionSort, List.length_map]
    omega

/-- C5 witness: a concrete store with an empty `pdfs` collection. -/
theorem search_top_k_bound_witness :
    ([("pdfs", ([] : List ChunkDict))].lookup COLLECTION_NAME = some [])
    ∧ ∃ res,
        search ⟨"db/rag.db", [("pdfs", [])]⟩ (fun _ => [(3 : ℝ), 4])
          [⟨"c", "s", 0, [1]⟩] "q" 7 = .ok res
        ∧ res.length = min 7 ([] : List ChunkDict).length
        ∧ List.Pairwise (fun a b => b.distance ≤ a.distance) res
        ∧ (([] : List ChunkDict).length ≤ 7 →
            res.length = ([] : List ChunkDict).length)
        ∧ searchDefault ⟨"db/rag.db", [("pdfs", [])]⟩ (fun _ => [(3 : ℝ), 4])
            [⟨"c", "s", 0, [1]⟩] "q"
          = search ⟨"db/rag.db", [("pdfs", [])]⟩ (fun _ => [(3 : ℝ), 4])
              [⟨"c", "s", 0, [1]⟩] "q" 5 :=
  ⟨rfl, search_top_k_bound ⟨"db/rag.db", [("pdfs", [])]⟩
    (fun _ => [(3 : ℝ), 4]) ⟨"c", "s", 0, [1]⟩ [] "q" 7 [] rfl⟩

/-- C8: calling `search` with an empty `dict_list` fails with the index
error raised while computing the output fields from `dict_list[0]`,
uniformly in the store — the result is the same for every client state,
so the failure happens before any store lookup. -/
theorem search_empty_dict_list (mc mcOther : MilvusClient)
    (enc : String → List ℝ) (question : String) (top_k : Nat) :
    search mc enc [] question top_k = .error .indexError
    ∧ search mc enc [] question top_k
        = search mcOther enc [] question top_k :=
  ⟨rfl, rfl⟩

theorem save_vectors_lookup (persisted : StoreState)
    (dict_list : List ChunkDict) :
    (save_vectors_to_db persisted dict_list).collections.lookup
      COLLECTION_NAME = some dict_list := by
  simp [save_vectors_to_db, create_collection, milvusInsert, openMilvus,
    List.lookup]

/-- C10: every ingest writes, and every search reads, the single fixed
collection `"pdfs"` in the database file `"db/rag.db"`: ingesting
recreates the collection with `overwrite=True`, so after any second
ingest the collection holds exactly the second ingest's records, and the
result of `search` depends on the store only through the contents of
the `"pdfs"` collection. -/
theorem fixed_collection_invariant :
    COLLECTION_NAME = "pdfs"
    ∧ (∀ persisted dict_list,
        (save_vectors_to_db persisted dict_list).dbfile = "db/rag.db")
    ∧ (∀ persisted dict_list,
        (save_vectors_to_db persisted dict_list).collections.lookup
          COLLECTION_NAME = some dict_list)
    ∧ (∀ persisted l1 l2,
        (save_vectors_to_db
          (save_vectors_to_db persisted l1).collections l2).collections.lookup
          COLLECTION_NAME = some l2)
    ∧ (∀ (mc mcOther : MilvusClient) (enc : String → List ℝ)
        (dl : List ChunkDict) (question : String) (top_k : Nat),
        mc.collections.lookup COLLECTION_NAME
          = mcOther.collections.lookup COLLECTION_NAME →
        search mc enc dl question top_k
          = search mcOther enc dl question top_k) := by
  refine ⟨rfl, fun persisted dict_list => rfl,
    fun persisted dict_list => save_vectors_lookup persisted dict_list,
    fun persisted l1 l2 => save_vectors_lookup _ l2,
    fun mc mcOther enc dl question top_k h => ?_⟩
  cases dl with
  | nil => rfl
  | cons d rest =>
    simp only [search]
    rw [h]

/-- C10 witness: two clients with distinct database files but equal
`"pdfs"` contents give the same search results. -/
theorem fixed_collection_invariant_witness :
    (⟨"db/rag.db", [("pdfs", [])]⟩ : MilvusClient).collections.lookup
        COLLECTION_NAME
      = (⟨"other.db", [("pdfs", []), ("extra", [])]⟩ :
          MilvusClient).collections.lookup COLLECTION_NAME
    ∧ search ⟨"db/rag.db", [("pdfs", [])]⟩ (fun _ => [(3 : ℝ), 4])
        [⟨"c", "s", 0, [1]⟩] "q" 2
      = search ⟨"other.db", [("pdfs", []), ("extra", [])]⟩
          (fun _ => [(3 : ℝ), 4]) [⟨"c", "s", 0, [1]⟩] "q" 2 :=
  ⟨rfl, fixed_collection_invariant.2.2.2.2
    ⟨"db/rag.db", [("pdfs", [])]⟩
    ⟨"other.db", [("pdfs", []), ("extra", [])]⟩
    (fun _ => [(3 : ℝ), 4]) [⟨"c", "s", 0, [1]⟩] "q" 2 rfl⟩
